import Mathlib

/-!
Verification development for the `airnity-render` promotion step runner
(`internal/promotion/runner/builtin/airnity_renderer.go`).

The Go code is shallowly embedded as follows:

* Filesystem paths are lists of path segments (`Path`); the filesystem is a
  finite association list from paths to file contents (`FS`).  Directories are
  implicit: only regular files are recorded, matching the fact that the claims
  under study speak about files appearing or disappearing.
* Manifest payloads and their YAML serialization are opaque strings: the
  runner never interprets manifest content beyond pass-through serialization.
* Fallible OS calls (`os.MkdirAll`, `os.MkdirTemp`, `os.WriteFile`,
  `os.Rename`, the copy fallback, `yaml.Marshal`) are driven by an explicit
  failure oracle (`Oracle`), so that theorems can quantify over every possible
  failure pattern of the environment.
* The HTTP exchange is a function from the request URL and payload to an
  abstract `HTTPResponse` (status code, body size, body parse outcome);
  transport-level failures before a response is received are outside the
  model.
-/

namespace Airnity

/-- A filesystem path, as a list of path segments below some root. -/
abbrev Path := List String

/-- Render a path for error messages, mirroring slash-joined OS paths. -/
def pathStr (p : Path) : String :=
  String.intercalate "/" p

/-- The filesystem: a finite map from paths to file contents, as an
association list.  Only regular files are recorded. -/
abbrev FS := List (Path × String)

/-- Look up the content of the file at path `p`. -/
def FS.read : FS → Path → Option String
  | [], _ => none
  | e :: rest, p => if e.1 = p then some e.2 else FS.read rest p

/-- Remove every entry at exactly path `p`. -/
def FS.erase : FS → Path → FS
  | [], _ => []
  | e :: rest, p => if e.1 = p then FS.erase rest p else e :: FS.erase rest p

/-- Write (create or overwrite) the file at path `p` with content `c`,
modelling `os.WriteFile` and `os.Rename` destinations. -/
def FS.writeFile (fs : FS) (p : Path) (c : String) : FS :=
  (p, c) :: fs.erase p

/-- Test whether `p` lies at or below the directory `d`
(that is, whether `d` is an initial run of the segments of `p`). -/
def hasBase : Path → Path → Bool
  | [], _ => true
  | _ :: _, [] => false
  | a :: as, b :: bs => a == b && hasBase as bs

/-- Remove every file at or below directory `d`, modelling `os.RemoveAll`. -/
def FS.removeAll : FS → Path → FS
  | [], _ => []
  | e :: rest, d => if hasBase d e.1 then FS.removeAll rest d else e :: FS.removeAll rest d

/-- If `p` is directly inside directory `dir` (one extra segment), return that
final segment, else `none`. -/
def childName : Path → Path → Option String
  | [], [n] => some n
  | [], _ => none
  | _ :: _, [] => none
  | a :: as, b :: bs => if a = b then childName as bs else none

/-- The names of the regular files lying directly in directory `dir`,
modelling the non-directory entries of `os.ReadDir` (which sorts entries by
name; the enumeration order is irrelevant here because every entry is
processed independently). -/
def FS.regularFilesIn : FS → Path → List String
  | [], _ => []
  | e :: rest, dir =>
    match childName dir e.1 with
    | some n => n :: FS.regularFilesIn rest dir
    | none => FS.regularFilesIn rest dir

/-! ### Path sanitizer

Modelled from the spec: the Path Sanitizer is `securejoin.SecureJoin` from the
third-party module `github.com/cyphar/filepath-securejoin`, whose source is
not part of this repository.  Per the spec (section 4.1) it normalizes the
relative path, collapsing `.` and `..` segments, and clamps any attempted
escape back at the root, so the result is always lexically a descendant of
the root. -/

/-- Split a relative path string on `/` into segments. -/
def splitSegsAux (cur : List Char) : List Char → List String
  | [] => [String.mk cur.reverse]
  | c :: rest =>
    if c = '/' then String.mk cur.reverse :: splitSegsAux [] rest
    else splitSegsAux (c :: cur) rest

/-- All `/`-separated segments of a path string. -/
def splitSegs (s : String) : List String :=
  splitSegsAux [] s.data

/-- Resolve segments left to right: empty and `.` segments vanish, `..` drops
the last accumulated segment (clamping at the root), anything else is kept. -/
def resolveSegs (acc : List String) : List String → List String
  | [] => acc
  | seg :: rest =>
    if seg = "" ∨ seg = "." then resolveSegs acc rest
    else if seg = ".." then resolveSegs acc.dropLast rest
    else resolveSegs (acc ++ [seg]) rest

/-- Modelled from the spec: `securejoin.SecureJoin root rel` resolves `rel`
lexically under `root`, never escaping it. -/
def secureJoin (root : Path) (rel : String) : Path :=
  root ++ resolveSegs [] (splitSegs rel)

/-! ### Filename derivation (`airnityRenderer.generateFilename`) -/

/-- ASCII lowercase of a character, as used by Go `strings.ToLower` on the
ASCII identifiers this runner sees. -/
def lowerChar (c : Char) : Char :=
  if 'A' ≤ c ∧ c ≤ 'Z' then Char.ofNat (c.toNat + 32) else c

/-- ASCII lowercase of a string (model of Go `strings.ToLower`). -/
def lowerStr (s : String) : String :=
  String.mk (s.data.map lowerChar)

/-- Join components with a separator (model of Go `strings.Join`). -/
def joinWith (sep : String) : List String → String
  | [] => ""
  | [x] => x
  | x :: y :: rest => x ++ sep ++ joinWith sep (y :: rest)

/-- Embedding of `airnityRenderer.generateFilename` (airnity_renderer.go
lines 389-412).  Note that the `version` parameter is accepted but never
used, exactly as in the Go source. -/
def generateFilename (group version kind name nspace : String) (index : Nat) : String :=
  let gvkStr := if group ≠ "" then lowerStr group ++ "." ++ lowerStr kind else lowerStr kind
  let nameTok := if name ≠ "" then name else "resource-" ++ toString index
  let components := [gvkStr, nameTok] ++ (if nspace ≠ "" then [nspace] else [])
  joinWith "-" components ++ ".yaml"

/-- Modelled from the spec: the Filename Deriver contract of section 4.2,
written from the words of the spec for comparison with the code-derived
`generateFilename`. -/
def deriveSpec (group kind name nspace : String) (fallbackIndex : Nat) : String :=
  let typeToken := if group = "" then lowerStr kind else lowerStr group ++ "." ++ lowerStr kind
  let nameToken := if name = "" then "resource-" ++ toString fallbackIndex else name
  let tokens := [typeToken, nameToken] ++ (if nspace = "" then [] else [nspace])
  joinWith "-" tokens ++ ".yaml"

/-! ### Data model (airnity_renderer.go lines 71-99) -/

/-- Embedding of `KubernetesResource`: identity fields plus an opaque
manifest payload (the runner never interprets it, so it is modelled as an
opaque string).  The Go field `Namespace *string` becomes an `Option`; the
field is called `nspace` because `namespace` is a Lean keyword. -/
structure KubernetesResource where
  group : String
  version : String
  kind : String
  name : String
  nspace : Option String
  manifest : String
deriving DecidableEq, Repr

/-- Embedding of `AirnityResponseItem`: one deployment target with its
rendered resources. -/
structure AirnityResponseItem where
  clusterID : String
  appName : String
  resources : List KubernetesResource
deriving DecidableEq, Repr

/-- Embedding of `AirnityDeployment` (request side). -/
structure AirnityDeployment where
  clusterId : String
  appName : String
deriving DecidableEq, Repr

/-- Embedding of `AirnityRequest`, the request payload. -/
structure AirnityRequest where
  repoURL : String
  commit : String
  deployments : List AirnityDeployment
deriving DecidableEq, Repr

/-- The step configuration `builtin.AirnityRendererConfig`.  Its Go
declaration lives in `pkg/x/promotion/runner/builtin` (generated from a JSON
schema, not under `src/`); the fields are reconstructed from every use the
runner makes of it: `RepoURL`, `Commit`, `Deployments` (each with
`ClusterID`/`AppName`), `OutPath` and `Timeout`.  Notably no field carries a
render endpoint. -/
structure AirnityRendererConfig where
  repoURL : String
  commit : String
  deployments : List AirnityDeployment
  outPath : String
  timeout : String
deriving DecidableEq, Repr

/-- Embedding of the request-payload construction in `airnityRenderer.run`
(lines 108-121). -/
def buildRequest (cfg : AirnityRendererConfig) : AirnityRequest :=
  { repoURL := cfg.repoURL
    commit := cfg.commit
    deployments := cfg.deployments.map (fun d => ⟨d.clusterId, d.appName⟩) }

/-! ### HTTP layer (`makeHTTPRequest`, `getHTTPClient`) -/

/-- Embedding of `airnityMaxResponseBytes = 10 << 20` (line 28). -/
def airnityMaxResponseBytes : Nat := 10 <<< 20

/-- Embedding of `airnityRequestTimeout = 30 * time.Second` (line 27), in
nanoseconds, the unit of Go `time.Duration`. -/
def airnityRequestTimeout : Nat := 30 * 1000000000

/-- An HTTP response from the render server, abstracted to the three facts
`makeHTTPRequest` inspects: the status code, the body size in bytes, and the
outcome of JSON-unmarshalling the body (`none` = malformed JSON). -/
structure HTTPResponse where
  statusCode : Nat
  bodySize : Nat
  bodyParse : Option (List AirnityResponseItem)
deriving DecidableEq, Repr

/-- Error produced when the body exceeds the read cap.  The prefix is the
wrapping at line 199; the inner text is modelled from the spec, since
`internal/io.LimitRead` is code of this repository that is not under
`src/` (the spec: exceeding the cap is a distinct error from a malformed
body). -/
def limitReadExceededMsg : String :=
  "error reading response body: response body exceeds the size limit"

/-- Error produced when the body is not valid JSON (wrapping at line 206;
the inner detail text comes from Go `encoding/json` and is abbreviated). -/
def unmarshalErrMsg : String :=
  "error unmarshaling response: invalid JSON"

/-- Embedding of the response handling in `airnityRenderer.makeHTTPRequest`
(lines 191-209): non-2xx status check, capped body read, JSON unmarshal.
Request serialization and transport failures (lines 163-189) are outside the
model: the function is given the response the server produced. -/
def makeHTTPRequest (resp : HTTPResponse) : Except String (List AirnityResponseItem) :=
  if resp.statusCode < 200 ∨ resp.statusCode ≥ 300 then
    .error ("airnity server returned status " ++ toString resp.statusCode)
  else if resp.bodySize > airnityMaxResponseBytes then
    .error limitReadExceededMsg
  else
    match resp.bodyParse with
    | none => .error unmarshalErrMsg
    | some items => .ok items

/-- Embedding of `airnityRenderer.getHTTPClient` (lines 212-223), modelling
the returned client by its timeout in nanoseconds.  `parseDuration` is an
abstract oracle for Go `time.ParseDuration` (standard library); in Go,
`ParseDuration "" ` fails, which theorems assume as a hypothesis. -/
def getHTTPClient (parseDuration : String → Option Nat) (cfgTimeout : String) : Nat :=
  if cfgTimeout ≠ "" then
    match parseDuration cfgTimeout with
    | some parsedTimeout => parsedTimeout
    | none => airnityRequestTimeout
  else airnityRequestTimeout

/-! ### Staged writer (`writeManifests` and helpers) -/

/-- Failure oracle for the OS and serialization calls of one invocation:
each field tells whether the corresponding call fails. -/
structure Oracle where
  mkdirAllFails : Path → Bool
  mkdirTempFails : Bool
  marshalFails : String → Bool
  writeFileFails : Path → Bool
  renameFails : Path → Path → Bool
  copyFails : Path → Path → Bool

/-- The oracle on which every OS and serialization call succeeds. -/
def noFailOracle : Oracle :=
  { mkdirAllFails := fun _ => false
    mkdirTempFails := false
    marshalFails := fun _ => false
    writeFileFails := fun _ => false
    renameFails := fun _ _ => false
    copyFails := fun _ _ => false }

/-- Model of `yaml.Marshal` on the opaque manifest payload: pass-through
(its failure is injected through `Oracle.marshalFails`). -/
def yamlMarshal (manifest : String) : String := manifest

/-- Embedding of `airnityRenderer.writeResourceToFile` (lines 355-387):
derive the filename, secure-join it under the target directory, serialize the
manifest, write the file (overwriting an existing file). -/
def writeResourceToFile (orc : Oracle) (appDir : Path) (r : KubernetesResource)
    (index : Nat) (fs : FS) : Option String × FS :=
  let nspace := r.nspace.getD ""
  let filename := generateFilename r.group r.version r.kind r.name nspace index
  let filePath := secureJoin appDir filename
  if orc.marshalFails r.manifest then
    (some "error marshaling resource to YAML", fs)
  else if orc.writeFileFails filePath then
    (some ("error writing file " ++ pathStr filePath), fs)
  else
    (none, fs.writeFile filePath (yamlMarshal r.manifest))

/-- The per-resource staging loop of `writeManifests` (lines 262-268),
with the error wrapping of line 265. -/
def writeResources (orc : Oracle) (appDir : Path) (clusterID appName : String) :
    Nat → List KubernetesResource → FS → Option String × FS
  | _, [], fs => (none, fs)
  | i, r :: rest, fs =>
    match writeResourceToFile orc appDir r i fs with
    | (some e, fs1) =>
      (some ("error writing resource " ++ toString i ++ " for app " ++ appName ++
        " in cluster " ++ clusterID ++ " to temp location: " ++ e), fs1)
    | (none, fs1) => writeResources orc appDir clusterID appName (i + 1) rest fs1

/-- The staging of one target (lines 253-271): create the per-target temp
directory, then write every resource into it. -/
def stageItem (orc : Oracle) (tempDir : Path) (item : AirnityResponseItem) (fs : FS) :
    Option String × FS :=
  let tempAppDir := tempDir ++ [item.clusterID, item.appName]
  if orc.mkdirAllFails tempAppDir then
    (some ("error creating temporary directory " ++ pathStr tempAppDir), fs)
  else
    writeResources orc tempAppDir item.clusterID item.appName 0 item.resources fs

/-- The staging loop over all targets. -/
def stageAll (orc : Oracle) (tempDir : Path) :
    List AirnityResponseItem → FS → Option String × FS
  | [], fs => (none, fs)
  | item :: rest, fs =>
    match stageItem orc tempDir item fs with
    | (some e, fs1) => (some e, fs1)
    | (none, fs1) => stageAll orc tempDir rest fs1

/-- Embedding of the per-file move of `airnityRenderer.moveManifestFiles`
(lines 318-327): try `os.Rename`; on any rename failure fall back to
`copyFile` followed by `os.Remove` of the source (a failure of that final
`os.Remove` is only logged in the Go code and is not modelled). -/
def moveFile (orc : Oracle) (src dest : Path) (fs : FS) : Option String × FS :=
  if orc.renameFails src dest then
    if orc.copyFails src dest then
      (some ("error copying file " ++ pathStr src ++ " to " ++ pathStr dest), fs)
    else
      (none, (fs.writeFile dest ((fs.read src).getD "")).erase src)
  else
    (none, (fs.writeFile dest ((fs.read src).getD "")).erase src)

/-- Move the listed file names from `srcDir` to `destDir`, one at a time. -/
def moveFiles (orc : Oracle) (srcDir destDir : Path) :
    List String → FS → Option String × FS
  | [], fs => (none, fs)
  | n :: rest, fs =>
    match moveFile orc (srcDir ++ [n]) (destDir ++ [n]) fs with
    | (some e, fs1) => (some e, fs1)
    | (none, fs1) => moveFiles orc srcDir destDir rest fs1

/-- Embedding of `airnityRenderer.moveManifestFiles` (lines 299-333): read
the regular files of the source directory (subdirectories are skipped) and
move each one individually into the destination directory. -/
def moveManifestFiles (orc : Oracle) (srcDir destDir : Path) (fs : FS) :
    Option String × FS :=
  moveFiles orc srcDir destDir (fs.regularFilesIn srcDir) fs

/-- The publish step for one target (lines 274-293): compute the final
directory `workDir/clusterId/appName`, ensure it exists, and move the staged
files into it.  Note: no removal of an existing final directory happens. -/
def publishItem (orc : Oracle) (tempDir workDir : Path) (item : AirnityResponseItem)
    (fs : FS) : Option String × FS :=
  let tempAppDir := tempDir ++ [item.clusterID, item.appName]
  let finalAppDir := workDir ++ [item.clusterID, item.appName]
  if orc.mkdirAllFails finalAppDir then
    (some ("error creating final directory " ++ pathStr finalAppDir), fs)
  else
    match moveManifestFiles orc tempAppDir finalAppDir fs with
    | (some e, fs1) =>
      (some ("error moving manifests for app " ++ item.appName ++ " in cluster " ++
        item.clusterID ++ ": " ++ e), fs1)
    | (none, fs1) => (none, fs1)

/-- The publish loop over all targets. -/
def publishAll (orc : Oracle) (tempDir workDir : Path) :
    List AirnityResponseItem → FS → Option String × FS
  | [], fs => (none, fs)
  | item :: rest, fs =>
    match publishItem orc tempDir workDir item fs with
    | (some e, fs1) => (some e, fs1)
    | (none, fs1) => publishAll orc tempDir workDir rest fs1

/-- Embedding of `airnityRenderer.writeManifests` (lines 225-297): ensure
the base directory, create the unique staging directory `workDir/tempName`
(`tempName` stands for the fresh name `os.MkdirTemp` picks), stage every
target, then publish every target; the deferred `os.RemoveAll` of the staging
directory is applied on every exit path after its creation. -/
def writeManifests (orc : Oracle) (workDir : Path) (tempName : String)
    (items : List AirnityResponseItem) (fs : FS) : Option String × FS :=
  if orc.mkdirAllFails workDir then
    (some ("error creating base directory " ++ pathStr workDir), fs)
  else if orc.mkdirTempFails then
    (some "error creating temporary directory", fs)
  else
    let tempDir := workDir ++ [tempName]
    match stageAll orc tempDir items fs with
    | (some e, fs1) => (some e, fs1.removeAll tempDir)
    | (none, fs1) =>
      match publishAll orc tempDir workDir items fs1 with
      | (some e, fs2) => (some e, fs2.removeAll tempDir)
      | (none, fs2) => (none, fs2.removeAll tempDir)

/-! ### Step orchestration (`airnityRenderer.run`) -/

/-- The step outcome statuses the runner produces. -/
inductive StepStatus where
  | succeeded
  | errored
deriving DecidableEq, Repr

/-- The observable outcome of one `run` invocation: the step status, the
error message (if any), and the resulting filesystem. -/
structure RunResult where
  status : StepStatus
  message : Option String
  fs : FS
deriving DecidableEq, Repr

/-- The compiled-in render endpoint (airnity_renderer.go line 124). -/
def airnityURL : String := "http://app-generator.kargo.svc.cluster.local"

/-- The URL `airnityRenderer.run` sends the HTTP request to, as a function
of the step configuration (lines 123-124): the configuration is ignored and
the fixed `airnityURL` is used. -/
def requestURL (cfg : AirnityRendererConfig) : String := airnityURL

/-- Embedding of `airnityRenderer.run` (lines 101-153): build the payload,
call the server at the fixed URL, resolve the output directory from
`cfg.outPath`, and write the manifests.  `server` maps the request URL and
payload to the response the environment produces. -/
def run (cfg : AirnityRendererConfig) (workDir : Path)
    (server : String → AirnityRequest → HTTPResponse) (orc : Oracle)
    (tempName : String) (fs : FS) : RunResult :=
  let payload := buildRequest cfg
  match makeHTTPRequest (server (requestURL cfg) payload) with
  | .error e =>
    ⟨.errored, some ("error making HTTP request to airnity server: " ++ e), fs⟩
  | .ok items =>
    let outDir := if cfg.outPath ≠ "" then secureJoin workDir cfg.outPath else workDir
    match writeManifests orc outDir tempName items fs with
    | (some e, fs1) => ⟨.errored, some ("error writing manifests: " ++ e), fs1⟩
    | (none, fs1) => ⟨.succeeded, none, fs1⟩

/-! ### Concrete fixtures used by counterexamples and witnesses -/

/-- A concrete configuration none of whose fields mentions the compiled-in
endpoint. -/
def cfgA : AirnityRendererConfig :=
  ⟨"https://github.com/a/repo", "sha-a", [⟨"cluster-a", "app-a"⟩], "out-a", "10s"⟩

/-- A second concrete configuration, different from `cfgA` in every field. -/
def cfgB : AirnityRendererConfig :=
  ⟨"https://github.com/b/repo", "sha-b", [⟨"cluster-b", "app-b"⟩], "out-b", "20s"⟩

/-- A filesystem holding one stale file inside the final target directory
`w/c1/a1` from a previous version of the output. -/
def fsStale : FS := [(["w", "c1", "a1", "stale.yaml"], "old")]

/-- One render-result target for cluster `c1`, app `a1`, with a single named
Deployment resource. -/
def itemFrontend : AirnityResponseItem :=
  ⟨"c1", "a1", [⟨"apps", "v1", "Deployment", "frontend", some "default", "m1"⟩]⟩

/-- A resource with empty name at list position 0. -/
def resA : KubernetesResource := ⟨"", "v1", "ConfigMap", "", none, "m1"⟩

/-- A resource identical to `resA` except for its API version, at list
position 1. -/
def resB : KubernetesResource := ⟨"", "v2", "ConfigMap", "", none, "m2"⟩

/-- An oracle on which every file write fails. -/
def orcWriteFail : Oracle := { noFailOracle with writeFileFails := fun _ => true }

/-- A filesystem with one staged file under `t` and one old file under `f`. -/
def fsMoveW : FS := [(["t", "a.yaml"], "c"), (["f", "stale.yaml"], "old")]

/-- A server answering 200 with an empty result list at every URL. -/
def serverOkEmpty : String → AirnityRequest → HTTPResponse :=
  fun _ _ => ⟨200, 0, some []⟩

/-- A server answering 200 at the compiled-in endpoint and 500 elsewhere. -/
def serverOkElse500 : String → AirnityRequest → HTTPResponse :=
  fun u _ => if u = airnityURL then ⟨200, 0, some []⟩ else ⟨500, 0, none⟩

/-- A server answering 500 at every URL. -/
def server500 : String → AirnityRequest → HTTPResponse := fun _ _ => ⟨500, 0, none⟩

/-- A server answering 200 with a body one byte over the read cap. -/
def serverBig : String → AirnityRequest → HTTPResponse :=
  fun _ _ => ⟨200, airnityMaxResponseBytes + 1, some []⟩

/-- A server answering 200 with a small body that is not valid JSON. -/
def serverBadJSON : String → AirnityRequest → HTTPResponse :=
  fun _ _ => ⟨200, 100, none⟩

/-- A concrete duration parser accepting only the string `5s`. -/
def parseW : String → Option Nat :=
  fun s => if s = "5s" then some 5000000000 else none

/-! ### Filesystem lemmas -/

theorem FS.read_erase_of_ne (fs : FS) (p q : Path) (h : q ≠ p) :
    (fs.erase p).read q = fs.read q := by
  induction fs with
  | nil => rfl
  | cons e rest ih =>
    simp only [FS.erase, FS.read]
    by_cases he : e.1 = p
    · rw [if_pos he, ih]
      have hne : e.1 ≠ q := by rw [he]; exact Ne.symm h
      rw [if_neg hne]
    · rw [if_neg he]
      simp only [FS.read]
      by_cases hq : e.1 = q
      · rw [if_pos hq, if_pos hq]
      · rw [if_neg hq, if_neg hq]
        exact ih

theorem FS.read_writeFile_self (fs : FS) (p : Path) (c : String) :
    (fs.writeFile p c).read p = some c := by
  simp [FS.writeFile, FS.read]

theorem FS.read_writeFile_of_ne (fs : FS) (p q : Path) (c : String) (h : q ≠ p) :
    (fs.writeFile p c).read q = fs.read q := by
  simp [FS.writeFile, FS.read, Ne.symm h, FS.read_erase_of_ne fs p q h]

theorem hasBase_iff (d p : Path) : hasBase d p = true ↔ ∃ r, p = d ++ r := by
  induction d generalizing p with
  | nil => simp [hasBase]
  | cons a as ih =>
    cases p with
    | nil => simp [hasBase]
    | cons b bs =>
      simp only [hasBase, Bool.and_eq_true, beq_iff_eq, ih, List.cons_append,
        List.cons.injEq]
      constructor
      · rintro ⟨hab, r, hr⟩
        exact ⟨r, hab.symm, hr⟩
      · rintro ⟨r, hba, hr⟩
        exact ⟨hba.symm, r, hr⟩

theorem hasBase_append (d r : Path) : hasBase d (d ++ r) = true :=
  (hasBase_iff d (d ++ r)).mpr ⟨r, rfl⟩

theorem hasBase_trans {a b c : Path} (h1 : hasBase a b = true)
    (h2 : hasBase b c = true) : hasBase a c = true := by
  rcases (hasBase_iff a b).mp h1 with ⟨r, rfl⟩
  rcases (hasBase_iff (a ++ r) c).mp h2 with ⟨s, rfl⟩
  exact (hasBase_iff a ((a ++ r) ++ s)).mpr ⟨r ++ s, by rw [List.append_assoc]⟩

theorem FS.removeAll_erase_of_base (fs : FS) {d p : Path} (h : hasBase d p = true) :
    (fs.erase p).removeAll d = fs.removeAll d := by
  induction fs with
  | nil => rfl
  | cons e rest ih =>
    simp only [FS.erase, FS.removeAll]
    by_cases he : e.1 = p
    · rw [if_pos he, ih]
      have hb : hasBase d e.1 = true := by rw [he]; exact h
      rw [if_pos hb]
    · rw [if_neg he]
      simp only [FS.removeAll]
      by_cases hb : hasBase d e.1 = true
      · rw [if_pos hb, if_pos hb]
        exact ih
      · rw [if_neg hb, if_neg hb, ih]

theorem FS.removeAll_writeFile_of_base (fs : FS) {d p : Path} (c : String)
    (h : hasBase d p = true) :
    (fs.writeFile p c).removeAll d = fs.removeAll d := by
  simp [FS.writeFile, FS.removeAll, h, FS.removeAll_erase_of_base fs h]

theorem FS.removeAll_of_no_base (fs : FS) (d : Path)
    (h : ∀ e ∈ fs, hasBase d e.1 = false) : fs.removeAll d = fs := by
  induction fs with
  | nil => rfl
  | cons e rest ih =>
    have he := h e (List.mem_cons_self e rest)
    simp [FS.removeAll, he, ih (fun x hx => h x (List.mem_cons_of_mem e hx))]

theorem FS.hasBase_of_mem_removeAll {fs : FS} {d : Path} {e : Path × String}
    (h : e ∈ fs.removeAll d) : hasBase d e.1 = false := by
  induction fs with
  | nil => cases h
  | cons x rest ih =>
    cases hb : hasBase d x.1 with
    | true =>
      simp only [FS.removeAll, hb, if_true] at h
      exact ih h
    | false =>
      simp only [FS.removeAll, hb, Bool.false_eq_true, if_false, List.mem_cons] at h
      rcases h with rfl | h
      · exact hb
      · exact ih h

theorem FS.removeAll_removeAll (fs : FS) (d : Path) :
    (fs.removeAll d).removeAll d = fs.removeAll d :=
  FS.removeAll_of_no_base _ _ (fun _ he => FS.hasBase_of_mem_removeAll he)

/-! ### Sanitizer lemmas -/

theorem resolveSegs_good (l : List String) :
    ∀ acc, (∀ s ∈ acc, s ≠ "" ∧ s ≠ "." ∧ s ≠ "..") →
    ∀ s ∈ resolveSegs acc l, s ≠ "" ∧ s ≠ "." ∧ s ≠ ".." := by
  induction l with
  | nil =>
    intro acc hacc
    simpa [resolveSegs] using hacc
  | cons seg rest ih =>
    intro acc hacc
    simp only [resolveSegs]
    by_cases h1 : seg = "" ∨ seg = "."
    · rw [if_pos h1]
      exact ih acc hacc
    · rw [if_neg h1]
      by_cases h2 : seg = ".."
      · rw [if_pos h2]
        exact ih acc.dropLast (fun s hs => hacc s (List.dropLast_subset acc hs))
      · rw [if_neg h2]
        refine ih (acc ++ [seg]) ?_
        intro s hs
        rcases List.mem_append.mp hs with hs | hs
        · exact hacc s hs
        · rcases List.mem_singleton.mp hs with rfl
          push_neg at h1
          exact ⟨h1.1, h1.2, h2⟩

/-! ### Staging frame lemmas: staging writes only below the staging root -/

theorem writeResourceToFile_frame (orc : Oracle) (appDir : Path)
    (r : KubernetesResource) (i : Nat) (fs : FS) {d : Path}
    (h : hasBase d appDir = true) :
    ((writeResourceToFile orc appDir r i fs).2).removeAll d = fs.removeAll d := by
  have hb : hasBase d (secureJoin appDir
      (generateFilename r.group r.version r.kind r.name (r.nspace.getD "") i)) = true := by
    refine hasBase_trans h ?_
    unfold secureJoin
    exact hasBase_append _ _
  simp only [writeResourceToFile]
  split_ifs <;> simp [FS.removeAll_writeFile_of_base _ _ hb]

theorem writeResources_frame (orc : Oracle) (appDir : Path) (cl ap : String)
    {d : Path} (h : hasBase d appDir = true) :
    ∀ (rs : List KubernetesResource) (i : Nat) (fs : FS),
    ((writeResources orc appDir cl ap i rs fs).2).removeAll d = fs.removeAll d := by
  intro rs
  induction rs with
  | nil => intro i fs; rfl
  | cons r rest ih =>
    intro i fs
    have hw := writeResourceToFile_frame orc appDir r i fs h
    rcases hr : writeResourceToFile orc appDir r i fs with ⟨err, fs1⟩
    rw [hr] at hw
    cases err with
    | none =>
      simp only [writeResources, hr]
      rw [ih (i + 1) fs1, hw]
    | some e =>
      simp only [writeResources, hr]
      exact hw

theorem stageItem_frame (orc : Oracle) (tempDir : Path)
    (item : AirnityResponseItem) (fs : FS) :
    ((stageItem orc tempDir item fs).2).removeAll tempDir = fs.removeAll tempDir := by
  have h : hasBase tempDir (tempDir ++ [item.clusterID, item.appName]) = true :=
    hasBase_append _ _
  simp only [stageItem]
  split_ifs
  · rfl
  · exact writeResources_frame orc _ _ _ h item.resources 0 fs

theorem stageAll_frame (orc : Oracle) (tempDir : Path) :
    ∀ (items : List AirnityResponseItem) (fs : FS),
    ((stageAll orc tempDir items fs).2).removeAll tempDir = fs.removeAll tempDir := by
  intro items
  induction items with
  | nil => intro fs; rfl
  | cons item rest ih =>
    intro fs
    have hs := stageItem_frame orc tempDir item fs
    rcases hi : stageItem orc tempDir item fs with ⟨err, fs1⟩
    rw [hi] at hs
    cases err with
    | none =>
      simp only [stageAll, hi]
      rw [ih fs1, hs]
    | some e =>
      simp only [stageAll, hi]
      exact hs

/-! ### Move lemmas -/

theorem moveFile_eval (orc : Oracle) (src dest : Path) (fs : FS)
    (hcopy : orc.copyFails src dest = false) :
    moveFile orc src dest fs =
      (none, (fs.writeFile dest ((fs.read src).getD "")).erase src) := by
  unfold moveFile
  cases hr : orc.renameFails src dest <;> simp [hr, hcopy]

theorem moveFiles_spec (orc : Oracle)
    (hcopy : ∀ s d, orc.copyFails s d = false) (srcDir destDir : Path) :
    ∀ (names : List String) (fs : FS),
    moveFiles orc srcDir destDir names fs = moveFiles noFailOracle srcDir destDir names fs ∧
    (moveFiles orc srcDir destDir names fs).1 = none ∧
    ∀ p : Path, (∀ n ∈ names, p ≠ srcDir ++ [n] ∧ p ≠ destDir ++ [n]) →
      ((moveFiles orc srcDir destDir names fs).2).read p = fs.read p := by
  intro names
  induction names with
  | nil => intro fs; exact ⟨rfl, rfl, fun p _ => rfl⟩
  | cons n rest ih =>
    intro fs
    have he := moveFile_eval orc (srcDir ++ [n]) (destDir ++ [n]) fs (hcopy _ _)
    have he0 := moveFile_eval noFailOracle (srcDir ++ [n]) (destDir ++ [n]) fs rfl
    refine ⟨?_, ?_, ?_⟩
    · simp only [moveFiles, he, he0]
      exact (ih _).1
    · simp only [moveFiles, he]
      exact (ih _).2.1
    · intro p hp
      simp only [moveFiles, he]
      rw [(ih _).2.2 p (fun m hm => hp m (List.mem_cons_of_mem n hm))]
      have hps := (hp n (List.mem_cons_self n rest)).1
      have hpd := (hp n (List.mem_cons_self n rest)).2
      rw [FS.read_erase_of_ne _ _ _ hps, FS.read_writeFile_of_ne _ _ _ _ hpd]

/-! ### Claim theorems -/

/-- Claim C4: for every caller-supplied relative sub-path and every derived
per-resource filename, including inputs containing `..` segments such as
`../../../x`, the path resolved by the sanitizer is lexically contained
within the given root: the result extends the root and its remaining
segments contain no `..` (or `.` or empty) segment, so the sanitizer never
returns a path outside the root. -/
theorem secureJoin_containment :
    (∀ (root : Path) (rel : String), ∃ rest : Path,
      secureJoin root rel = root ++ rest ∧
      ∀ s ∈ rest, s ≠ "" ∧ s ≠ "." ∧ s ≠ "..") ∧
    secureJoin ["out"] "../../../x" = ["out", "x"] := by
  constructor
  · intro root rel
    refine ⟨resolveSegs [] (splitSegs rel), rfl, ?_⟩
    refine resolveSegs_good (splitSegs rel) [] ?_
    intro s hs
    simp at hs
  · decide

/-- Claim C5: filename derivation is a pure, deterministic function of
(group, kind, name, namespace, fallbackIndex): it is independent of the API
version, equals the spec contract `deriveSpec` (lowercase kind prefixed by
lowercase group and a dot when the group is non-empty; name or the
`resource-index` fallback; the namespace only when non-empty; joined with
dashes and suffixed `.yaml`), and produces the three example filenames of
the spec. -/
theorem generateFilename_matches_spec :
    (∀ (g v v' k n ns : String) (i : Nat),
      generateFilename g v k n ns i = deriveSpec g k n ns i ∧
      generateFilename g v k n ns i = generateFilename g v' k n ns i) ∧
    generateFilename "apps" "v1" "Deployment" "frontend" "default" 0 =
      "apps.deployment-frontend-default.yaml" ∧
    generateFilename "" "v1" "Namespace" "test-namespace" "" 0 =
      "namespace-test-namespace.yaml" ∧
    generateFilename "argoproj.io" "v1alpha1" "Application" "my-app" "argocd" 0 =
      "argoproj.io.application-my-app-argocd.yaml" := by
  refine ⟨?_, by decide, by decide, by decide⟩
  intro g v v' k n ns i
  constructor
  · simp only [generateFilename, deriveSpec, ne_eq, ite_not]
  · rfl

/-- Claim C1 counterexample: the URL the HTTP request is sent to is NOT
taken from the configuration.  Two configurations that differ in every field
yield the same request URL, namely the compiled-in constant
`http://app-generator.kargo.svc.cluster.local`, and no field of the first
configuration equals that URL (so it cannot have been taken from it). -/
theorem requestURL_not_from_config :
    requestURL cfgA = "http://app-generator.kargo.svc.cluster.local" ∧
    requestURL cfgB = "http://app-generator.kargo.svc.cluster.local" ∧
    cfgA ≠ cfgB ∧
    cfgA.repoURL ≠ requestURL cfgA ∧ cfgA.commit ≠ requestURL cfgA ∧
    cfgA.outPath ≠ requestURL cfgA ∧ cfgA.timeout ≠ requestURL cfgA := by
  decide

/-- Claim C1 (amended): the render endpoint is a compiled-in constant of the
core: for every configuration the request URL is
`http://app-generator.kargo.svc.cluster.local`, and the behaviour of `run`
depends on the server only through its answer at that fixed URL. -/
theorem requestURL_constant (cfg : AirnityRendererConfig) (workDir : Path)
    (orc : Oracle) (tempName : String) (fs : FS)
    (server server' : String → AirnityRequest → HTTPResponse) :
    requestURL cfg = "http://app-generator.kargo.svc.cluster.local" ∧
    ((∀ payload, server airnityURL payload = server' airnityURL payload) →
      run cfg workDir server orc tempName fs = run cfg workDir server' orc tempName fs) := by
  refine ⟨rfl, fun h => ?_⟩
  simp only [run, requestURL]
  rw [h (buildRequest cfg)]

/-- Witness for C1 (amended): instantiated at `cfgA` and two concrete
servers that agree at the fixed URL but differ elsewhere. -/
theorem requestURL_constant_witness :
    requestURL cfgA = "http://app-generator.kargo.svc.cluster.local" ∧
    run cfgA ["w"] serverOkEmpty noFailOracle "airnity-temp-0" [] =
      run cfgA ["w"] serverOkElse500 noFailOracle "airnity-temp-0" [] := by
  have h := requestURL_constant cfgA ["w"] noFailOracle "airnity-temp-0" []
    serverOkEmpty serverOkElse500
  exact ⟨h.1, h.2 (fun payload => by simp [serverOkEmpty, serverOkElse500])⟩

/-- Claim C9 counterexample: two resources in the same target that agree on
group, kind, name and namespace (name empty) and differ only in version do
NOT derive the same file path: the fallback index enters the filename, both
files are written and neither overwrites the other. -/
theorem emptyName_version_distinct_paths :
    (writeResources noFailOracle ["d"] "c" "a" 0 [resA, resB] []).1 = none ∧
    FS.read (writeResources noFailOracle ["d"] "c" "a" 0 [resA, resB] []).2
      ["d", "configmap-resource-0.yaml"] = some "m1" ∧
    FS.read (writeResources noFailOracle ["d"] "c" "a" 0 [resA, resB] []).2
      ["d", "configmap-resource-1.yaml"] = some "m2" ∧
    generateFilename "" "v1" "ConfigMap" "" "" 0 ≠
      generateFilename "" "v2" "ConfigMap" "" "" 1 := by
  decide

/-- Claim C9 (amended): filename derivation ignores the API version: for two
resources in the same target with non-empty name that agree on group, kind,
name and namespace and differ only in version, the derived path is identical
(whatever their indices), writing both succeeds with no error, and the
later-written resource silently overwrites the file of the earlier one. -/
theorem generateFilename_ignores_version
    (g v1 v2 k n : String) (nso : Option String) (i j : Nat)
    (m1 m2 cl ap : String) (appDir : Path) (fs : FS)
    (hname : n ≠ "") :
    generateFilename g v1 k n (nso.getD "") i = generateFilename g v2 k n (nso.getD "") j ∧
    (writeResources noFailOracle appDir cl ap 0
      [⟨g, v1, k, n, nso, m1⟩, ⟨g, v2, k, n, nso, m2⟩] fs).1 = none ∧
    ((writeResources noFailOracle appDir cl ap 0
      [⟨g, v1, k, n, nso, m1⟩, ⟨g, v2, k, n, nso, m2⟩] fs).2).read
        (secureJoin appDir (generateFilename g v1 k n (nso.getD "") 0)) = some m2 := by
  have hfile : ∀ (v : String) (idx : Nat),
      generateFilename g v k n (nso.getD "") idx =
        generateFilename g v1 k n (nso.getD "") 0 := by
    intro v idx
    simp [generateFilename, hname]
  have step : writeResources noFailOracle appDir cl ap 0
      [⟨g, v1, k, n, nso, m1⟩, ⟨g, v2, k, n, nso, m2⟩] fs =
      (none,
        (fs.writeFile (secureJoin appDir (generateFilename g v1 k n (nso.getD "") 0)) m1).writeFile
          (secureJoin appDir (generateFilename g v2 k n (nso.getD "") 1)) m2) := rfl
  refine ⟨(hfile v1 i).trans (hfile v2 j).symm, ?_, ?_⟩
  · rw [step]
  · rw [step]
    have hp : secureJoin appDir (generateFilename g v2 k n (nso.getD "") 1) =
        secureJoin appDir (generateFilename g v1 k n (nso.getD "") 0) := by
      rw [hfile v2 1]
    rw [hp]
    exact FS.read_writeFile_self _ _ _

/-- Witness for C9 (amended): instantiated at a named Deployment appearing
with versions v1 and v2. -/
theorem generateFilename_ignores_version_witness :
    generateFilename "apps" "v1" "Deployment" "frontend" ((some "default").getD "") 0 =
      generateFilename "apps" "v2" "Deployment" "frontend" ((some "default").getD "") 1 ∧
    (writeResources noFailOracle ["d"] "c" "a" 0
      [⟨"apps", "v1", "Deployment", "frontend", some "default", "m1"⟩,
       ⟨"apps", "v2", "Deployment", "frontend", some "default", "m2"⟩] []).1 = none ∧
    ((writeResources noFailOracle ["d"] "c" "a" 0
      [⟨"apps", "v1", "Deployment", "frontend", some "default", "m1"⟩,
       ⟨"apps", "v2", "Deployment", "frontend", some "default", "m2"⟩] []).2).read
        (secureJoin ["d"] (generateFilename "apps" "v1" "Deployment" "frontend"
          ((some "default").getD "") 0)) = some "m2" :=
  generateFilename_ignores_version "apps" "v1" "v2" "Deployment" "frontend"
    (some "default") 0 1 "m1" "m2" "c" "a" ["d"] [] (by decide)

/-- Claim C10: HTTP-client construction never fails; the client timeout is
the parsed configured value when the configured timeout string parses, and
the default 30 seconds otherwise (in particular an invalid non-empty timeout
string is silently ignored).  The hypothesis records that Go
time.ParseDuration rejects the empty string. -/
theorem getHTTPClient_timeout (parseDuration : String → Option Nat) (t : String)
    (hEmpty : parseDuration "" = none) :
    getHTTPClient parseDuration t = (parseDuration t).getD airnityRequestTimeout ∧
    airnityRequestTimeout = 30 * 1000000000 := by
  refine ⟨?_, rfl⟩
  by_cases ht : t = ""
  · subst ht
    simp [getHTTPClient, hEmpty]
  · simp only [getHTTPClient, ne_eq, if_pos ht]
    cases hp : parseDuration t <;> simp [hp]

/-- Witness for C10: a concrete parser at an invalid and a valid timeout
string. -/
theorem getHTTPClient_timeout_witness :
    getHTTPClient parseW "bogus" = airnityRequestTimeout ∧
    getHTTPClient parseW "5s" = 5000000000 := by
  constructor
  · rw [(getHTTPClient_timeout parseW "bogus" (by decide)).1]
    decide
  · rw [(getHTTPClient_timeout parseW "5s" (by decide)).1]
    decide

/-- Claim C2 counterexample: in the publish phase an existing final
directory is NOT removed before the staged files are moved in.  Concretely,
with a stale file already present in the final directory `w/c1/a1`, a
successful invocation leaves that stale file in place next to the newly
moved manifest, whereas the claim requires the old directory (and hence the
stale file) to be removed. -/
theorem publish_keeps_stale_file :
    (writeManifests noFailOracle ["w"] "airnity-temp-1" [itemFrontend] fsStale).1 = none ∧
    FS.read (writeManifests noFailOracle ["w"] "airnity-temp-1" [itemFrontend] fsStale).2
      ["w", "c1", "a1", "stale.yaml"] = some "old" ∧
    FS.read (writeManifests noFailOracle ["w"] "airnity-temp-1" [itemFrontend] fsStale).2
      ["w", "c1", "a1", "apps.deployment-frontend-default.yaml"] = some "m1" := by
  decide

/-- Claim C2 (amended): in the publish phase the final directory
`outputRoot/clusterId/appName` is computed and created if missing, but an
existing directory there is NOT removed; instead each regular file of the
staged target directory is moved into it individually, each move attempted
as a single rename with a copy-followed-by-source-delete fallback on any
rename failure (the outcome is the same either way), and destination files
whose names do not collide with a moved file are left in place. -/
theorem moveManifestFiles_moves_files_individually
    (rf : Path → Path → Bool) (srcDir destDir : Path) (fs : FS) :
    moveManifestFiles { noFailOracle with renameFails := rf } srcDir destDir fs =
      moveManifestFiles noFailOracle srcDir destDir fs ∧
    (moveManifestFiles { noFailOracle with renameFails := rf } srcDir destDir fs).1 = none ∧
    ∀ p : Path,
      (∀ n ∈ fs.regularFilesIn srcDir, p ≠ srcDir ++ [n] ∧ p ≠ destDir ++ [n]) →
      ((moveManifestFiles { noFailOracle with renameFails := rf } srcDir destDir fs).2).read p =
        fs.read p :=
  moveFiles_spec { noFailOracle with renameFails := rf } (fun _ _ => rfl)
    srcDir destDir (fs.regularFilesIn srcDir) fs

/-- Witness for C2 (amended): with an always-failing rename (forcing the
copy-and-delete fallback), a pre-existing non-colliding destination file is
preserved. -/
theorem moveManifestFiles_moves_files_individually_witness :
    ((moveManifestFiles { noFailOracle with renameFails := fun _ _ => true }
      ["t"] ["f"] fsMoveW).2).read ["f", "stale.yaml"] =
      fsMoveW.read ["f", "stale.yaml"] :=
  (moveManifestFiles_moves_files_individually (fun _ _ => true) ["t"] ["f"] fsMoveW).2.2
    ["f", "stale.yaml"] (by decide)

/-- Claim C3: if any error occurs during the staging phase (creating the
staging directory, creating a per-target directory, or writing a resource
file), the staged writer returns an error and the filesystem is exactly as
before the invocation: nothing new appears under the output root and the
publish phase is never entered.  The first hypothesis states that the fresh
staging directory chosen by MkdirTemp contains nothing beforehand. -/
theorem writeManifests_staging_failure_frame
    (orc : Oracle) (workDir : Path) (tempName : String)
    (items : List AirnityResponseItem) (fs : FS)
    (hfresh : ∀ e ∈ fs, hasBase (workDir ++ [tempName]) e.1 = false)
    (hstage : orc.mkdirAllFails workDir = true ∨ orc.mkdirTempFails = true ∨
      (stageAll orc (workDir ++ [tempName]) items fs).1.isSome = true) :
    (writeManifests orc workDir tempName items fs).1.isSome = true ∧
    (writeManifests orc workDir tempName items fs).2 = fs := by
  have hclean : fs.removeAll (workDir ++ [tempName]) = fs :=
    FS.removeAll_of_no_base fs _ hfresh
  by_cases h1 : orc.mkdirAllFails workDir = true
  · simp [writeManifests, h1]
  · by_cases h2 : orc.mkdirTempFails = true
    · simp [writeManifests, h1, h2]
    · have h3 : (stageAll orc (workDir ++ [tempName]) items fs).1.isSome = true := by
        rcases hstage with h | h | h
        · exact absurd h h1
        · exact absurd h h2
        · exact h
      have hframe := stageAll_frame orc (workDir ++ [tempName]) items fs
      rcases hsa : stageAll orc (workDir ++ [tempName]) items fs with ⟨err, fs1⟩
      rw [hsa] at h3 hframe
      cases err with
      | none => simp at h3
      | some e =>
        refine ⟨?_, ?_⟩ <;> simp [writeManifests, h1, h2, hsa, hframe, hclean]

/-- Witness for C3: a write failure on every path aborts staging and leaves
the pre-existing filesystem untouched. -/
theorem writeManifests_staging_failure_frame_witness :
    (writeManifests orcWriteFail ["w"] "airnity-temp-2" [itemFrontend] fsStale).1.isSome = true ∧
    (writeManifests orcWriteFail ["w"] "airnity-temp-2" [itemFrontend] fsStale).2 = fsStale :=
  writeManifests_staging_failure_frame orcWriteFail ["w"] "airnity-temp-2" [itemFrontend] fsStale
    (by decide) (by decide)

/-- Claim C6: on every exit path of the staged writer (success or any
staging or publish error), the temporary staging directory created under the
output root is removed before the writer returns: removing everything under
the staging directory from the resulting filesystem changes nothing, i.e.
nothing under the staging directory remains.  The hypothesis states that the
fresh staging directory contains nothing beforehand. -/
theorem writeManifests_cleanup (orc : Oracle) (workDir : Path) (tempName : String)
    (items : List AirnityResponseItem) (fs : FS)
    (hfresh : ∀ e ∈ fs, hasBase (workDir ++ [tempName]) e.1 = false) :
    ((writeManifests orc workDir tempName items fs).2).removeAll (workDir ++ [tempName]) =
      (writeManifests orc workDir tempName items fs).2 := by
  have hclean : fs.removeAll (workDir ++ [tempName]) = fs :=
    FS.removeAll_of_no_base fs _ hfresh
  by_cases h1 : orc.mkdirAllFails workDir = true
  · simp [writeManifests, h1, hclean]
  · by_cases h2 : orc.mkdirTempFails = true
    · simp [writeManifests, h1, h2, hclean]
    · rcases hsa : stageAll orc (workDir ++ [tempName]) items fs with ⟨err, fs1⟩
      cases err with
      | some e => simp [writeManifests, h1, h2, hsa, FS.removeAll_removeAll]
      | none =>
        rcases hpa : publishAll orc (workDir ++ [tempName]) workDir items fs1 with ⟨err2, fs2⟩
        cases err2 with
        | some e => simp [writeManifests, h1, h2, hsa, hpa, FS.removeAll_removeAll]
        | none => simp [writeManifests, h1, h2, hsa, hpa, FS.removeAll_removeAll]

/-- Witness for C6: a concrete successful invocation leaves nothing under
the staging directory. -/
theorem writeManifests_cleanup_witness :
    ((writeManifests noFailOracle ["w"] "airnity-temp-3" [itemFrontend] []).2).removeAll
      (["w"] ++ ["airnity-temp-3"]) =
    (writeManifests noFailOracle ["w"] "airnity-temp-3" [itemFrontend] []).2 :=
  writeManifests_cleanup noFailOracle ["w"] "airnity-temp-3" [itemFrontend] [] (by decide)

/-- Claim C7: for every HTTP response with a status code outside the 2xx
range, the runner returns the errored status with a message that carries the
numeric status code, and the filesystem is unchanged (no files written). -/
theorem run_non2xx_errored (cfg : AirnityRendererConfig) (workDir : Path)
    (server : String → AirnityRequest → HTTPResponse) (orc : Oracle)
    (tempName : String) (fs : FS) (resp : HTTPResponse)
    (hresp : server (requestURL cfg) (buildRequest cfg) = resp)
    (hcode : resp.statusCode < 200 ∨ resp.statusCode ≥ 300) :
    run cfg workDir server orc tempName fs =
      ⟨.errored, some ("error making HTTP request to airnity server: " ++
        ("airnity server returned status " ++ toString resp.statusCode)), fs⟩ ∧
    ∃ s t : String,
      ("error making HTTP request to airnity server: " ++
        ("airnity server returned status " ++ toString resp.statusCode)) =
        s ++ toString resp.statusCode ++ t := by
  constructor
  · simp only [run]
    rw [hresp]
    simp only [makeHTTPRequest]
    rw [if_pos hcode]
  · refine ⟨"error making HTTP request to airnity server: " ++
      "airnity server returned status ", "", ?_⟩
    rw [String.append_empty, String.append_assoc]

/-- Witness for C7: a server answering 500 yields the errored status, the
message carrying 500, and an unchanged (empty) filesystem. -/
theorem run_non2xx_errored_witness :
    run cfgA ["w"] server500 noFailOracle "airnity-temp-4" [] =
      ⟨.errored, some ("error making HTTP request to airnity server: " ++
        ("airnity server returned status " ++ toString (500 : Nat))), []⟩ :=
  (run_non2xx_errored cfgA ["w"] server500 noFailOracle "airnity-temp-4" []
    ⟨500, 0, none⟩ rfl (by decide)).1

/-- Claim C8: on a 2xx response, a body over the 10 MiB cap produces one
error and a body that is not valid JSON produces a different error; the two
errors are distinct, and in either case the runner returns the errored
status with the filesystem unchanged (no files written). -/
theorem run_body_errors (cfg : AirnityRendererConfig) (workDir : Path)
    (server : String → AirnityRequest → HTTPResponse) (orc : Oracle)
    (tempName : String) (fs : FS) (resp : HTTPResponse)
    (hresp : server (requestURL cfg) (buildRequest cfg) = resp)
    (hok : 200 ≤ resp.statusCode ∧ resp.statusCode < 300) :
    (airnityMaxResponseBytes < resp.bodySize →
      run cfg workDir server orc tempName fs =
        ⟨.errored,
          some ("error making HTTP request to airnity server: " ++ limitReadExceededMsg),
          fs⟩) ∧
    (resp.bodySize ≤ airnityMaxResponseBytes → resp.bodyParse = none →
      run cfg workDir server orc tempName fs =
        ⟨.errored,
          some ("error making HTTP request to airnity server: " ++ unmarshalErrMsg),
          fs⟩) ∧
    limitReadExceededMsg ≠ unmarshalErrMsg := by
  obtain ⟨hlo, hhi⟩ := hok
  have hnc : ¬(resp.statusCode < 200 ∨ resp.statusCode ≥ 300) := by omega
  refine ⟨?_, ?_, by decide⟩
  · intro hbig
    simp only [run]
    rw [hresp]
    simp only [makeHTTPRequest]
    rw [if_neg hnc, if_pos hbig]
  · intro hle hparse
    have hnb : ¬(airnityMaxResponseBytes < resp.bodySize) := by omega
    simp only [run]
    rw [hresp]
    simp only [makeHTTPRequest]
    rw [if_neg hnc, if_neg hnb, hparse]

/-- Witness for C8: a server whose body exceeds the cap, and a server whose
body is not valid JSON, each yield the errored status with the respective
message and an unchanged (empty) filesystem. -/
theorem run_body_errors_witness :
    run cfgA ["w"] serverBig noFailOracle "airnity-temp-5" [] =
      ⟨.errored,
        some ("error making HTTP request to airnity server: " ++ limitReadExceededMsg),
        []⟩ ∧
    run cfgA ["w"] serverBadJSON noFailOracle "airnity-temp-5" [] =
      ⟨.errored,
        some ("error making HTTP request to airnity server: " ++ unmarshalErrMsg),
        []⟩ := by
  constructor
  · exact (run_body_errors cfgA ["w"] serverBig noFailOracle "airnity-temp-5" []
      ⟨200, airnityMaxResponseBytes + 1, some []⟩ rfl (by decide)).1 (by decide)
  · exact (run_body_errors cfgA ["w"] serverBadJSON noFailOracle "airnity-temp-5" []
      ⟨200, 100, none⟩ rfl (by decide)).2.1 (by decide) rfl

end Airnity
